import Mathlib

/-!
A shallow embedding of the gobrick domain-primitive library (Go) and proofs
about its validating constructors, codec entry points and structured error
model.

Modelling conventions:
* Go strings are lists of rune code points (`GoStr := List Nat`); `goStr`
  converts a Lean string literal to this form so concrete inputs stay
  readable.  `utf8.RuneCountInString` is list length.  Go's byte-level
  `len` coincides with rune count on the ASCII strings all validators
  accept.
* Machine integers (`int`, `int64`) are modelled as `Int`; the 64-bit
  range check in `Version.Scan` is kept literally (the repository targets
  64-bit platforms, where `int` and `int64` have the same bounds).
* `time.Time` instants are modelled as `Int` with `0` as Go's zero
  instant.
* Fallible Go methods returning `error` become `Except`-valued functions;
  methods that mutate a pointer receiver take the prior state and return
  the new one.
* `encoding/json` tokens are the inductive `Json`; the std-lib behaviour
  of `json.Unmarshal` into `string`/`int`/`time.Time` targets (including
  its treatment of `null` as a no-op for plain Go types) is embedded in
  the `goUnmarshal*` helpers.
-/

/-- A Go string as its list of rune code points. -/
abbrev GoStr := List Nat

/-- Convert a Lean string literal into the rune-code-point model. -/
def goStr (s : String) : GoStr := s.data.map Char.toNat

/-- Go `unicode.IsSpace` on a rune code point (Latin-1 plus the Unicode
space runes `unicode.White_Space` contains). -/
def goIsSpace (c : Nat) : Bool :=
  (9 ≤ c && c ≤ 13) || c = 32 || c = 133 || c = 160 ||
  c = 0x1680 || (0x2000 ≤ c && c ≤ 0x200A) || c = 0x2028 || c = 0x2029 ||
  c = 0x202F || c = 0x205F || c = 0x3000

/-- ASCII decimal digit rune. -/
def isDigitRune (c : Nat) : Bool := 48 ≤ c && c ≤ 57

/-- Go `strings.TrimSpace`: drop leading and trailing white space. -/
def goTrimSpace (s : GoStr) : GoStr :=
  ((s.dropWhile goIsSpace).reverse.dropWhile goIsSpace).reverse

/-- Case-fold a single rune as Go `strings.ToLower` does on ASCII. -/
def goLowerRune (c : Nat) : Nat := if 65 ≤ c ∧ c ≤ 90 then c + 32 else c

/-- Go `strings.ToLower` (ASCII range; the validators only accept ASCII). -/
def goToLower (s : GoStr) : GoStr := s.map goLowerRune

/-- Case-raise a single rune as Go `strings.ToUpper` does on ASCII. -/
def goUpperRune (c : Nat) : Nat := if 97 ≤ c ∧ c ≤ 122 then c - 32 else c

/-- Go `strings.ToUpper` (ASCII range). -/
def goToUpper (s : GoStr) : GoStr := s.map goUpperRune

/-! ## The structured error model (`msg/err.go`) -/

/-- `msg.ErrorCode`: the closed set of error categories. -/
inductive ErrorCode where
  | conflict
  | invalid
  | notFound
  | internal
  | unauthorized
  | forbidden
  | domainViolation
  deriving DecidableEq, Repr

/-- A value stored in an error's diagnostic context map (`map[string]any`). -/
inductive CtxVal where
  | str (s : GoStr)
  | int (n : Int)
  deriving DecidableEq, Repr

/-- A diagnostic context map, as the list of its key/value entries in
insertion order. -/
abbrev Ctx := List (GoStr × CtxVal)

/-- `msg.MessageError`: wrapped cause (summarised as an optional
description), human message, category code, diagnostic context, and child
errors for aggregate failures. -/
inductive MessageError where
  | mk (cause : Option GoStr) (message : GoStr) (code : ErrorCode)
      (context : Ctx) (details : List MessageError)

/-- The wrapped cause of a `MessageError`. -/
def MessageError.cause : MessageError → Option GoStr
  | .mk c _ _ _ _ => c

/-- The human-readable message of a `MessageError`. -/
def MessageError.message : MessageError → GoStr
  | .mk _ m _ _ _ => m

/-- The category code of a `MessageError`. -/
def MessageError.code : MessageError → ErrorCode
  | .mk _ _ c _ _ => c

/-- The diagnostic context of a `MessageError`. -/
def MessageError.context : MessageError → Ctx
  | .mk _ _ _ ctx _ => ctx

/-- The child errors of a `MessageError`. -/
def MessageError.details : MessageError → List MessageError
  | .mk _ _ _ _ d => d

/-- `msg.NewValidationError`: a `MessageError` with code `invalid_input`. -/
def newValidationError (cause : Option GoStr) (context : Ctx)
    (message : GoStr) : MessageError :=
  .mk cause message .invalid context []

/-- An error returned by a primitive: either the structured
`*msg.MessageError` or a plain sentinel error (`fmt.Errorf`). -/
inductive GoError where
  | msgErr (e : MessageError)
  | plain (s : GoStr)

/-- `string(e.Code)`: the wire name of an error category. -/
def codeStr : ErrorCode → GoStr
  | .conflict => goStr "conflict"
  | .invalid => goStr "invalid_input"
  | .notFound => goStr "not_found"
  | .internal => goStr "internal_error"
  | .unauthorized => goStr "unauthorized"
  | .forbidden => goStr "forbidden"
  | .domainViolation => goStr "domain_violation"

/-- `MessageError.HTTPStatus`: deterministic category → status mapping. -/
def httpStatus : ErrorCode → Nat
  | .conflict => 409
  | .invalid => 400
  | .notFound => 404
  | .unauthorized => 401
  | .forbidden => 403
  | .internal => 500
  | .domainViolation => 500

/-- `msg.ErrorResponse`: the boundary projection of a `MessageError`. -/
structure ErrorResponse where
  statusCode : Nat
  message : GoStr
  code : GoStr
  context : Ctx
  details : List ErrorResponse

/-- `MessageError.ToResponse`: project an error and, recursively and in
order, each of its child errors. -/
def toResponse : MessageError → ErrorResponse
  | .mk _ m c ctx ds =>
    { statusCode := httpStatus c
      message := m
      code := codeStr c
      context := ctx
      details := ds.attach.map (fun d => toResponse d.1) }
decreasing_by
  simp_wf
  have h := List.sizeOf_lt_of_mem d.2
  omega

/-! ## JSON tokens and std-lib decode behaviour -/

/-- A structured-data (JSON) token.  A textual timestamp token that parses
as the instant `t` is abstracted as `.time t`; `.bad` stands for any token
the std-lib decoder rejects for the requested target type. -/
inductive Json where
  | null
  | str (s : GoStr)
  | num (n : Int)
  | time (t : Int)
  | bad
  deriving DecidableEq, Repr

/-- `json.Unmarshal(data, &s)` for a `string` target: a string token
yields its contents, `null` is a no-op leaving the zero value, anything
else is a type error. -/
def goUnmarshalString : Json → Except GoError GoStr
  | .str s => .ok s
  | .null => .ok []
  | _ => .error (.plain (goStr "json: cannot unmarshal into string"))

/-- `json.Unmarshal(data, &i)` for an `int` target. -/
def goUnmarshalInt : Json → Except GoError Int
  | .num n => .ok n
  | .null => .ok 0
  | _ => .error (.plain (goStr "json: cannot unmarshal into int"))

/-- `json.Unmarshal(data, &t)` for a `time.Time` target. -/
def goUnmarshalTime : Json → Except GoError Int
  | .time t => .ok t
  | .null => .ok 0
  | _ => .error (.plain (goStr "json: cannot unmarshal into time.Time"))

/-- A value arriving from the database driver into a `Scan` method: Go's
`nil`, `string`, `[]byte`, `int64`, `time.Time`, or any other type. -/
inductive SqlSrc where
  | null
  | str (s : GoStr)
  | bytes (b : GoStr)
  | int64 (n : Int)
  | time (t : Int)
  | other
  deriving DecidableEq, Repr

/-! ## Currency (`types/currency.go`) -/

/-- `Currency.IsValid`: membership in the closed set {BRL, USD, EUR}. -/
def currencyIsValid (c : GoStr) : Bool :=
  c = goStr "BRL" || c = goStr "USD" || c = goStr "EUR"

/-- `types.NewCurrency`: upper-case the input, then require membership in
the closed set; failure is the plain sentinel `ErrInvalidCurrency`. -/
def newCurrency (value : GoStr) : Except GoError GoStr :=
  let c := goToUpper value
  if currencyIsValid c then .ok c
  else .error (.plain (goStr "invalid currency"))

/-- `Currency.UnmarshalJSON`: decode a JSON string and assign it without
any validation. -/
def currencyUnmarshalJSON (data : Json) : Except GoError GoStr :=
  match goUnmarshalString data with
  | .error e => .error e
  | .ok s => .ok s

/-- `Currency.Scan`: `nil` clears to the empty string; `string`/`[]byte`
sources are assigned without any validation; other types fail with the
plain sentinel. -/
def currencyScan : SqlSrc → Except GoError GoStr
  | .null => .ok []
  | .str s => .ok s
  | .bytes b => .ok b
  | _ => .error (.plain (goStr "invalid currency"))

/-! ## Day (`unnamed part_006`) -/

/-- `types.NewDay`: require `1 ≤ value ≤ 31`; failure is the plain
sentinel `ErrInvalidDay`. -/
def newDay (value : Int) : Except GoError Int :=
  if value < 1 ∨ value > 31 then
    .error (.plain (goStr "day must be between 1 and 31"))
  else .ok value

/-- `Day.UnmarshalJSON`: decode a JSON number and assign it without any
validation. -/
def dayUnmarshalJSON (data : Json) : Except GoError Int :=
  match goUnmarshalInt data with
  | .error e => .error e
  | .ok n => .ok n

/-- `Day.Scan`: `nil` clears to 0; an `int64` source is assigned without
any validation; other types fail with a plain error. -/
def dayScan : SqlSrc → Except GoError Int
  | .null => .ok 0
  | .int64 n => .ok n
  | _ => .error (.plain (goStr "unsupported scan type for Day"))

/-- A calendar date, as the year/month/day triple the `Day` arithmetic
reads off a `time.Time`. -/
structure GoDate where
  year : Int
  month : Int
  day : Int
  deriving DecidableEq, Repr

/-- Gregorian leap-year rule, as in Go's `time` package. -/
def isLeapYear (y : Int) : Bool := y % 4 = 0 && (y % 100 ≠ 0 || y % 400 = 0)

/-- The day count of month `m` of year `y`; equals
`time.Date(y, m+1, 0, ...).Day()` for `1 ≤ m ≤ 12` (day zero of the next
month is the last day of month `m`). -/
def goDaysIn (y m : Int) : Int :=
  if m = 2 then (if isLeapYear y then 29 else 28)
  else if m = 4 ∨ m = 6 ∨ m = 9 ∨ m = 11 then 30
  else 31

/-- One step of `time.Date` day-overflow normalization: move an excess of
days into the following month. -/
def normDateStep (d : GoDate) : GoDate :=
  if d.day > goDaysIn d.year d.month then
    if d.month = 12 then ⟨d.year + 1, 1, d.day - goDaysIn d.year d.month⟩
    else ⟨d.year, d.month + 1, d.day - goDaysIn d.year d.month⟩
  else d

/-- `today.AddDate(0, -1, 0)`: step the month back (borrowing a year for
January) and re-normalize the day.  For day values at most 31 a single
normalization step reaches the fixed point of Go's normalization loop. -/
def goAddMonthMinus1 (d : GoDate) : GoDate :=
  if d.month = 1 then normDateStep ⟨d.year - 1, 12, d.day⟩
  else normDateStep ⟨d.year, d.month - 1, d.day⟩

/-- `Day.DaysUntil`: days until the next occurrence of day-of-month `d`,
wrapping into the next month using the current month's length. -/
def daysUntil (d : Int) (today : GoDate) : Int :=
  if d ≥ today.day then d - today.day
  else (goDaysIn today.year today.month - today.day) + d

/-- `Day.DaysOverdue`: days since the last occurrence of day-of-month
`d`, wrapping into the previous month using that month's length. -/
def daysOverdue (d : Int) (today : GoDate) : Int :=
  if d ≤ today.day then today.day - d
  else
    let prev := goAddMonthMinus1 today
    (goDaysIn prev.year prev.month - d) + today.day

/-! ## Phone (`unnamed part_001`) -/

/-- The fixed default country code `"55"`. -/
def DefaultCountryCode : GoStr := goStr "55"

/-- Country-code digit count. -/
def CountryCodeLength : Nat := 2

/-- Area-code (DDD) digit count. -/
def DDDLength : Nat := 2

/-- Subscriber digit count. -/
def LocalPhoneNumberLength : Nat := 9

/-- Full canonical digit count: country + area + subscriber. -/
def NormalizedPhoneLength : Nat :=
  CountryCodeLength + DDDLength + LocalPhoneNumberLength

/-- Maximum accepted raw input length, in runes. -/
def MaxRawPhoneInputLength : Nat := 30

/-- Go `strings.HasPrefix s pre`. -/
def goStartsWith (s pre : GoStr) : Bool := List.isPrefixOf pre s

/-- `normalizePhone`: strip every non-digit rune (the `\D+` regex
replacement). -/
def normalizePhone (s : GoStr) : GoStr := s.filter isDigitRune

/-- `MessageError.WithContext`: append one key/value entry to the
diagnostic context. -/
def withContext (e : MessageError) (k : GoStr) (v : CtxVal) : MessageError :=
  .mk e.cause e.message e.code (e.context ++ [(k, v)]) e.details

/-- Render a JSON token back to text, as `string(data)` does on the raw
bytes handed to `UnmarshalJSON`. -/
def jsonRaw : Json → GoStr
  | .null => goStr "null"
  | .str s => [34] ++ s ++ [34]
  | .num n => goStr (toString n)
  | .time t => [34] ++ goStr (toString t) ++ [34]
  | .bad => goStr "<invalid json>"

/-- `validateAndPrefixNormalizedPhone`: on an 11-digit (area+subscriber)
number, reject as ambiguous if it already starts with the country code,
otherwise prepend the country code; then require exactly 13 digits and
the country-code prefix. -/
def validateAndPrefixNormalizedPhone (normalizedNum originalInput : GoStr) :
    Except GoError GoStr :=
  if normalizedNum.length = DDDLength + LocalPhoneNumberLength then
    if goStartsWith normalizedNum DefaultCountryCode then
      .error (.msgErr (newValidationError none
        [(goStr "input_phone", .str originalInput),
         (goStr "normalized_phone", .str normalizedNum)]
        (goStr "Invalid phone number format: 11-digit number starting with country code 55 is ambiguous or incomplete.")))
    else
      let finalNum := DefaultCountryCode ++ normalizedNum
      -- after prefixing, numLen = 13 = NormalizedPhoneLength and the
      -- prefix holds by construction, so the two trailing checks of the
      -- source pass; they are kept for fidelity
      if finalNum.length ≠ NormalizedPhoneLength then
        .error (.msgErr (newValidationError none
          [(goStr "input_phone", .str originalInput),
           (goStr "normalized_phone_after_prefix_attempt", .str finalNum),
           (goStr "expected_length", .int 13),
           (goStr "actual_length", .int finalNum.length)]
          (goStr "Normalized phone number must have 13 digits (e.g., 55DDNNNNNNNNN).")))
      else if ¬ goStartsWith finalNum DefaultCountryCode then
        .error (.msgErr (newValidationError none
          [(goStr "input_phone", .str originalInput),
           (goStr "normalized_phone", .str finalNum),
           (goStr "expected_prefix", .str DefaultCountryCode)]
          (goStr "Normalized 13-digit phone number must start with country code 55.")))
      else .ok finalNum
  else if normalizedNum.length ≠ NormalizedPhoneLength then
    .error (.msgErr (newValidationError none
      [(goStr "input_phone", .str originalInput),
       (goStr "normalized_phone_after_prefix_attempt", .str normalizedNum),
       (goStr "expected_length", .int 13),
       (goStr "actual_length", .int normalizedNum.length)]
      (goStr "Normalized phone number must have 13 digits (e.g., 55DDNNNNNNNNN).")))
  else if ¬ goStartsWith normalizedNum DefaultCountryCode then
    .error (.msgErr (newValidationError none
      [(goStr "input_phone", .str originalInput),
       (goStr "normalized_phone", .str normalizedNum),
       (goStr "expected_prefix", .str DefaultCountryCode)]
      (goStr "Normalized 13-digit phone number must start with country code 55.")))
  else .ok normalizedNum

/-- `types.NewPhone`: trim, reject empty, reject raw input over 30 runes,
strip non-digits, then validate and prefix. -/
def newPhone (phoneStr : GoStr) : Except GoError GoStr :=
  let trimmedInput := goTrimSpace phoneStr
  if trimmedInput = [] then
    .error (.msgErr (newValidationError none
      [(goStr "input_phone", .str phoneStr)]
      (goStr "Phone number cannot be empty.")))
  else if trimmedInput.length > MaxRawPhoneInputLength then
    .error (.msgErr (newValidationError none
      [(goStr "max_length", .int 30),
       (goStr "input_phone", .str phoneStr)]
      (goStr "Raw phone input exceeds maximum length of 30 characters.")))
  else
    validateAndPrefixNormalizedPhone (normalizePhone trimmedInput) phoneStr

/-- `Phone.UnmarshalJSON`: decode a JSON string, then run `NewPhone`. -/
def phoneUnmarshalJSON (data : Json) : Except GoError GoStr :=
  match goUnmarshalString data with
  | .error _ =>
    .error (.msgErr (newValidationError (some (goStr "json unmarshal error"))
      [(goStr "input_json", .str (jsonRaw data))]
      (goStr "Phone must be a valid JSON string.")))
  | .ok s => newPhone s

/-- `Phone.UnmarshalText`: run `NewPhone` on the raw text. -/
def phoneUnmarshalText (text : GoStr) : Except GoError GoStr := newPhone text

/-- `Phone.Value`: an empty phone is refused; otherwise the canonical
string is the storage form. -/
def phoneValue (p : GoStr) : Except GoError SqlSrc :=
  if p = [] then
    .error (.msgErr (newValidationError none []
      (goStr "Attempted to save an empty or invalid Phone value to the database.")))
  else .ok (.str p)

/-- `Phone.Scan`: reject `nil` and non-string sources; normalize and
validate string/byte sources through the same
`validateAndPrefixNormalizedPhone`, enriching a failure with the scanned
value. -/
def phoneScan (src : SqlSrc) : Except GoError GoStr :=
  match src with
  | .null =>
    .error (.msgErr (newValidationError none
      [(goStr "target_type", .str (goStr "Phone"))]
      (goStr "Scanned nil value for non-nullable Phone type from database.")))
  | .str s => phoneScanStr s
  | .bytes b => phoneScanStr b
  | _ =>
    .error (.msgErr (newValidationError none
      [(goStr "received_type", .str (goStr "other"))]
      (goStr "Incompatible type for Phone scan. Expected string or []byte.")))
where
  /-- The common string/byte body of `Phone.Scan`. -/
  phoneScanStr (phoneStr : GoStr) : Except GoError GoStr :=
    match validateAndPrefixNormalizedPhone (normalizePhone phoneStr) phoneStr with
    | .ok v => .ok v
    | .error (.msgErr m) =>
      .error (.msgErr (withContext m (goStr "scan_source_value_db") (.str phoneStr)))
    | .error _ =>
      .error (.msgErr (newValidationError (some (goStr "invalid format"))
        [(goStr "scan_source_value_db", .str phoneStr)]
        (goStr "Failed to scan database value to Phone due to invalid format after normalization.")))

/-! ## Email (`types/email.go`) -/

/-- Maximum accepted e-mail length. -/
def MaxEmailLength : Nat := 254

/-- ASCII letter or digit rune. -/
def isAlnumRune (c : Nat) : Bool :=
  isDigitRune c || (65 ≤ c && c ≤ 90) || (97 ≤ c && c ≤ 122)

/-- The non-alphanumeric runes the local part of the e-mail pattern
allows: `. ! # $ % & apostrophe * + / = ? ^ _ backtick lbrace vbar rbrace
tilde -` (listed numerically to keep the source file ASCII-plain). -/
def localSpecials : GoStr :=
  [46, 33, 35, 36, 37, 38, 39, 42, 43, 47, 61, 63, 94, 95, 96, 123, 124, 125, 126, 45]

/-- A rune the local part of the e-mail pattern allows. -/
def isLocalRune (c : Nat) : Bool := isAlnumRune c || c ∈ localSpecials

/-- A rune allowed inside a domain label: letter, digit or hyphen. -/
def labelFillRune (c : Nat) : Bool := isAlnumRune c || c = 45

/-- One domain label of the e-mail pattern:
`[a-zA-Z0-9](?:[a-zA-Z0-9-]{0,61}[a-zA-Z0-9])?` — a leading
alphanumeric, optionally followed by up to 61 fill runes and a final
alphanumeric. -/
def labelOk : GoStr → Bool
  | [] => false
  | c :: rest =>
    isAlnumRune c &&
      (rest.isEmpty ||
        (rest.length ≤ 62 && rest.dropLast.all labelFillRune &&
          isAlnumRune (rest.getLastD 0)))

/-- Split a domain at every dot (rune 46), keeping empty components so
that leading, trailing and doubled dots surface as invalid labels. -/
def splitDot : GoStr → List GoStr
  | [] => [[]]
  | c :: rest =>
    if c = 46 then [] :: splitDot rest
    else
      match splitDot rest with
      | comp :: comps => (c :: comp) :: comps
      | [] => [[c]]

/-- The domain of the e-mail pattern: dot-separated labels, every one
matching `labelOk`. -/
def domainOk (d : GoStr) : Bool := (splitDot d).all labelOk

/-- The anchored e-mail regular expression of `types/email.go`: a
non-empty run of local runes, an `@`, then a label domain.  Local runes
exclude `@`, so a match always splits at the first `@`. -/
def emailMatch (s : GoStr) : Bool :=
  match s.dropWhile (fun c => c ≠ 64) with
  | c :: domain =>
    (c == 64) && (!(s.takeWhile (fun c => c ≠ 64)).isEmpty) &&
      (s.takeWhile (fun c => c ≠ 64)).all isLocalRune && domainOk domain
  | [] => false

/-- `validateEmail`: lower-case the trimmed input, then require it
non-empty, within 254 runes, and matching the e-mail pattern.  The
normalized form, not the raw input, is returned; every failure carries
the raw input in context. -/
def validateEmail (emailStr : GoStr) : Except GoError GoStr :=
  let normalizedEmail := goToLower (goTrimSpace emailStr)
  if normalizedEmail = [] then
    .error (.msgErr (newValidationError none
      [(goStr "input_email", .str emailStr)]
      (goStr "Email address cannot be empty.")))
  else if normalizedEmail.length > MaxEmailLength then
    .error (.msgErr (newValidationError none
      [(goStr "length", .int normalizedEmail.length),
       (goStr "max_length", .int 254),
       (goStr "input_email", .str emailStr)]
      (goStr "Email address exceeds maximum length of 254 characters.")))
  else if ¬ emailMatch normalizedEmail then
    .error (.msgErr (newValidationError none
      [(goStr "input_email", .str emailStr)]
      (goStr "Email address has an invalid format.")))
  else .ok normalizedEmail

/-- `types.NewEmail`: the validating constructor is `validateEmail`. -/
def newEmail (emailStr : GoStr) : Except GoError GoStr := validateEmail emailStr

/-- `Email.UnmarshalJSON`: decode a JSON string, then validate. -/
def emailUnmarshalJSON (data : Json) : Except GoError GoStr :=
  match goUnmarshalString data with
  | .error _ =>
    .error (.msgErr (newValidationError (some (goStr "json unmarshal error"))
      [(goStr "input_json", .str (jsonRaw data))]
      (goStr "Email must be a valid JSON string.")))
  | .ok s => validateEmail s

/-- `Email.UnmarshalText`: validate the raw text. -/
def emailUnmarshalText (text : GoStr) : Except GoError GoStr :=
  validateEmail text

/-- `Email.Value`: the canonical string, with no further checks. -/
def emailValue (e : GoStr) : SqlSrc := .str e

/-- `Email.Scan`: reject `nil` and non-string sources; validate
string/byte sources through `validateEmail`, enriching a failure with the
scanned value. -/
def emailScan (src : SqlSrc) : Except GoError GoStr :=
  match src with
  | .null =>
    .error (.msgErr (newValidationError none
      [(goStr "target_type", .str (goStr "Email"))]
      (goStr "Scanned nil value for non-nullable Email type.")))
  | .str s => emailScanStr s
  | .bytes b => emailScanStr b
  | _ =>
    .error (.msgErr (newValidationError none
      [(goStr "received_type", .str (goStr "other"))]
      (goStr "Incompatible type for Email. Expected string or []byte.")))
where
  /-- The common string/byte body of `Email.Scan`. -/
  emailScanStr (emailStr : GoStr) : Except GoError GoStr :=
    match validateEmail emailStr with
    | .ok v => .ok v
    | .error (.msgErr m) =>
      .error (.msgErr (withContext m (goStr "scan_source_value") (.str emailStr)))
    | .error _ =>
      .error (.msgErr (newValidationError (some (goStr "invalid format"))
        [(goStr "scan_source_value", .str emailStr)]
        (goStr "Failed to scan database value to Email.")))

/-! ## Version (`unnamed part_000`) -/

/-- The largest value of a 64-bit Go `int`. -/
def maxInt64 : Int := 2 ^ 63 - 1

/-- The smallest value of a 64-bit Go `int`. -/
def minInt64 : Int := -(2 ^ 63)

/-- `types.NewVersion`: the counter starts at 1. -/
def newVersion : Int := 1

/-- `Version.Increment`. -/
def versionIncrement (v : Int) : Int := v + 1

/-- `Version.Previous`: never negative; 1 or less steps to 0. -/
def versionPrevious (v : Int) : Int := if v ≤ 1 then 0 else v - 1

/-- `Version.MarshalJSON`: the plain JSON number. -/
def versionMarshalJSON (v : Int) : Json := .num v

/-- `Version.UnmarshalJSON`: `null` is rejected explicitly; any other
token must decode as a JSON number, which is assigned unchecked. -/
def versionUnmarshalJSON (data : Json) : Except GoError Int :=
  if data = .null then
    .error (.msgErr (newValidationError none
      [(goStr "input_json", .str (goStr "null")),
       (goStr "target_type", .str (goStr "Version"))]
      (goStr "Version cannot be null (received JSON null).")))
  else
    match goUnmarshalInt data with
    | .error _ =>
      .error (.msgErr (newValidationError (some (goStr "json unmarshal error"))
        [(goStr "input_json", .str (jsonRaw data)),
         (goStr "target_type", .str (goStr "Version"))]
        (goStr "Version must be a JSON number.")))
    | .ok i => .ok i

/-- `Version.Value`: the `int64` storage form. -/
def versionValue (v : Int) : SqlSrc := .int64 v

/-- Parse a run of ASCII decimal digits, most significant first. -/
def parseDecDigits : GoStr → Option Int
  | [] => none
  | l => l.foldl (fun acc c =>
      match acc with
      | none => none
      | some n => if isDigitRune c then some (n * 10 + ((c : Int) - 48)) else none)
      (some 0)

/-- Go `strconv.ParseInt(s, 10, 32)`: optional sign, decimal digits, and
a 32-bit range check. -/
def goParseInt32 (s : GoStr) : Option Int :=
  let signed : Option Int :=
    match s with
    | 43 :: rest => parseDecDigits rest
    | 45 :: rest => (parseDecDigits rest).map Neg.neg
    | _ => parseDecDigits s
  match signed with
  | some n => if n ≤ 2 ^ 31 - 1 ∧ -(2 ^ 31) ≤ n then some n else none
  | none => none

/-- `Version.Scan`: reject `nil`; accept an `int64` within `int` range or
a `[]byte` that parses as a decimal; reject other source types. -/
def versionScan : SqlSrc → Except GoError Int
  | .null =>
    .error (.msgErr (newValidationError none
      [(goStr "target_type", .str (goStr "Version"))]
      (goStr "Scanned nil value for non-nullable Version.")))
  | .int64 s =>
    if s > maxInt64 ∨ s < minInt64 then
      .error (.msgErr (newValidationError none
        [(goStr "source_value", .int s)]
        (goStr "Value from database is out of range for Version (int).")))
    else .ok s
  | .bytes b =>
    match goParseInt32 b with
    | some parsed => .ok parsed
    | none =>
      .error (.msgErr (newValidationError (some (goStr "strconv error"))
        [(goStr "input_bytes", .str b)]
        (goStr "Failed to convert []byte to int for Version.")))
  | _ =>
    .error (.msgErr (newValidationError none
      [(goStr "received_type", .str (goStr "other"))]
      (goStr "Incompatible type for Version. Expected int64 or []byte.")))

/-! ## Identifier / UUID (`types/currency.go` part 2, `types/uuid_test.go`) -/

/-- The value of one hexadecimal rune, if any. -/
def hexRuneVal (c : Nat) : Option Nat :=
  if 48 ≤ c ∧ c ≤ 57 then some (c - 48)
  else if 97 ≤ c ∧ c ≤ 102 then some (c - 87)
  else if 65 ≤ c ∧ c ≤ 70 then some (c - 55)
  else none

/-- Fold a run of hexadecimal runes into a number. -/
def parseHexRun (s : GoStr) : Option Nat :=
  s.foldl (fun acc c =>
    match acc, hexRuneVal c with
    | some n, some v => some (n * 16 + v)
    | _, _ => none) (some 0)

/-- Parse the canonical 8-4-4-4-12 textual UUID form into its 128-bit
value.  Modelled from the `github.com/google/uuid` dependency (the
repository delegates parsing to it); the dependency also accepts a few
rarer shapes no claim touches. -/
def goUuidParse (s : GoStr) : Option Nat :=
  match s.splitOn 45 with
  | [a, b, c, d, e] =>
    if a.length = 8 ∧ b.length = 4 ∧ c.length = 4 ∧ d.length = 4 ∧ e.length = 12 then
      match parseHexRun (a ++ b ++ c ++ d ++ e) with
      | some v => some v
      | none => none
    else none
  | _ => none

/-- The all-zero nil sentinel. -/
def uuidNil : Nat := 0

/-- `UUID.Scan`: delegate to the dependency scanner, wrapping its failure
in a validation error naming the source type.  A `nil` source succeeds
and leaves the freshly-declared inner value, i.e. the nil sentinel —
behaviour of the `google/uuid` dependency asserted by the repository's
own test. -/
def goUuidScan (src : SqlSrc) : Except GoError Nat :=
  match src with
  | .null => .ok uuidNil
  | .str s =>
    match goUuidParse s with
    | some v => .ok v
    | none =>
      .error (.msgErr (newValidationError (some (goStr "uuid parse error"))
        [(goStr "source_type", .str (goStr "string"))]
        (goStr "Failed to scan database value of type string into UUID.")))
  | .bytes b =>
    match goUuidParse b with
    | some v => .ok v
    | none =>
      .error (.msgErr (newValidationError (some (goStr "uuid parse error"))
        [(goStr "source_type", .str (goStr "[]uint8"))]
        (goStr "Failed to scan database value of type []uint8 into UUID.")))
  | _ =>
    .error (.msgErr (newValidationError (some (goStr "uuid scan error"))
      [(goStr "source_type", .str (goStr "other"))]
      (goStr "Failed to scan database value into UUID.")))

/-! ## NullableTime (`types/nullable_time.go`) -/

/-- `types.NullableTime`: an instant and a validity flag, owned as one
unit. -/
structure NullableTime where
  time : Int
  valid : Bool
  deriving DecidableEq, Repr

/-- `types.NewNullableTime`. -/
def newNullableTime (t : Int) (valid : Bool) : NullableTime := ⟨t, valid⟩

/-- `NullableTime.Set`: validity is derived from whether the instant is
the zero instant. -/
def ntSet (_nt : NullableTime) (t : Int) : NullableTime := ⟨t, t != 0⟩

/-- `NullableTime.SetNull`: clear both fields together. -/
def ntSetNull (_nt : NullableTime) : NullableTime := ⟨0, false⟩

/-- `NullableTime.IsNullable`: reports the absence flag. -/
def ntIsNullable (nt : NullableTime) : Bool := !nt.valid

/-- `NullableTime.IsZero`: reports on the instant alone. -/
def ntIsZero (nt : NullableTime) : Bool := nt.time == 0

/-- `NullableTime.UnmarshalJSON`: an explicit `null` token clears the
pair without error; a timestamp token sets it valid; anything else fails
with a validation error (the flag is lowered before returning). -/
def ntUnmarshalJSON (nt : NullableTime) (data : Json) :
    NullableTime × Option MessageError :=
  if data = .null then (⟨0, false⟩, none)
  else
    match goUnmarshalTime data with
    | .error _ =>
      (⟨nt.time, false⟩, some (newValidationError (some (goStr "json unmarshal error"))
        [(goStr "input_json", .str (jsonRaw data)),
         (goStr "target_type", .str (goStr "NullableTime"))]
        (goStr "NullableTime must be a valid JSON timestamp or null.")))
    | .ok t => (⟨t, true⟩, none)

/-! ## NullableUUID (`types/nullable_uuid.go`) -/

/-- `types.NullableUUID`: an identifier and a validity flag. -/
structure NullableUUID where
  uuid : Nat
  valid : Bool
  deriving DecidableEq, Repr

/-- `NullableUUID.IsValid`: requires both the flag and a non-nil
identifier. -/
def nuIsValid (nu : NullableUUID) : Bool := nu.valid && nu.uuid != uuidNil

/-- `NullableUUID.UnmarshalJSON`: an explicit `null` token clears the
pair without error; a string token must parse as a UUID; anything else
fails with a validation error. -/
def nuUnmarshalJSON (nu : NullableUUID) (data : Json) :
    NullableUUID × Option MessageError :=
  if data = .null then (⟨uuidNil, false⟩, none)
  else
    match data with
    | .str s =>
      match goUuidParse s with
      | some v => (⟨v, true⟩, none)
      | none =>
        (⟨nu.uuid, false⟩, some (newValidationError (some (goStr "uuid parse error"))
          [(goStr "input_json", .str (jsonRaw data)),
           (goStr "target_type", .str (goStr "NullableUUID"))]
          (goStr "NullableUUID must be a valid JSON UUID string or null.")))
    | _ =>
      (⟨nu.uuid, false⟩, some (newValidationError (some (goStr "json unmarshal error"))
        [(goStr "input_json", .str (jsonRaw data)),
         (goStr "target_type", .str (goStr "NullableUUID"))]
        (goStr "NullableUUID must be a valid JSON UUID string or null.")))

/-! ## CreatedAt / UpdatedAt (audit timestamps, in `types/uuid_test.go`) -/

/-- `parseAuditTimeMultipleLayouts`: the std-lib `time.Parse` tried over
seven layouts in priority order.  The layout machinery itself is std-lib
behaviour; it is embedded as a parser of the first (RFC3339, UTC,
second-precision) layout, with the remaining layouts abstracted as
unparsed — no claim depends on which texts parse, only on the nil /
`time.Time` / failure branches of `Scan`. -/
def auditParse (s : GoStr) : Option Int :=
  match s with
  | [y1, y2, y3, y4, 45, m1, m2, 45, d1, d2, 84, h1, h2, 58, n1, n2, 58, s1, s2, 90] =>
    if [y1, y2, y3, y4, m1, m2, d1, d2, h1, h2, n1, n2, s1, s2].all isDigitRune then
      parseDecDigits [y1, y2, y3, y4, m1, m2, d1, d2, h1, h2, n1, n2, s1, s2]
    else none
  | _ => none

/-- `CreatedAt.UnmarshalJSON`: `null` is rejected explicitly; any other
token must decode as a timestamp. -/
def createdAtUnmarshalJSON (data : Json) : Except GoError Int :=
  if data = .null then
    .error (.msgErr (newValidationError none
      [(goStr "input_json", .str (goStr "null")),
       (goStr "target_type", .str (goStr "CreatedAt"))]
      (goStr "CreatedAt cannot be null (received JSON null).")))
  else
    match goUnmarshalTime data with
    | .error _ =>
      .error (.msgErr (newValidationError (some (goStr "json unmarshal error"))
        [(goStr "input_json", .str (jsonRaw data)),
         (goStr "target_type", .str (goStr "CreatedAt"))]
        (goStr "CreatedAt must be a valid JSON timestamp.")))
    | .ok t => .ok t

/-- `UpdatedAt.UnmarshalJSON`: identical to `CreatedAt` up to naming. -/
def updatedAtUnmarshalJSON (data : Json) : Except GoError Int :=
  if data = .null then
    .error (.msgErr (newValidationError none
      [(goStr "input_json", .str (goStr "null")),
       (goStr "target_type", .str (goStr "UpdatedAt"))]
      (goStr "UpdatedAt cannot be null (received JSON null).")))
  else
    match goUnmarshalTime data with
    | .error _ =>
      .error (.msgErr (newValidationError (some (goStr "json unmarshal error"))
        [(goStr "input_json", .str (jsonRaw data)),
         (goStr "target_type", .str (goStr "UpdatedAt"))]
        (goStr "UpdatedAt must be a valid JSON timestamp.")))
    | .ok t => .ok t

/-- `CreatedAt.Scan`: reject `nil`; accept a native instant directly or
text in one of the audit layouts; reject other source types. -/
def createdAtScan : SqlSrc → Except GoError Int
  | .null =>
    .error (.msgErr (newValidationError none
      [(goStr "target_type", .str (goStr "CreatedAt")),
       (goStr "received_value", .str (goStr "nil_from_db"))]
      (goStr "Scanned nil value for non-nullable CreatedAt.")))
  | .time t => .ok t
  | .bytes b =>
    match auditParse b with
    | some t => .ok t
    | none =>
      .error (.msgErr (newValidationError (some (goStr "time parse error"))
        [(goStr "input_bytes", .str b),
         (goStr "target_type", .str (goStr "CreatedAt"))]
        (goStr "Failed to convert []byte to CreatedAt.")))
  | .str s =>
    match auditParse s with
    | some t => .ok t
    | none =>
      .error (.msgErr (newValidationError (some (goStr "time parse error"))
        [(goStr "input_string", .str s),
         (goStr "target_type", .str (goStr "CreatedAt"))]
        (goStr "Failed to convert string to CreatedAt.")))
  | _ =>
    .error (.msgErr (newValidationError none
      [(goStr "received_type", .str (goStr "other")),
       (goStr "target_type", .str (goStr "CreatedAt"))]
      (goStr "Incompatible type for CreatedAt.")))

/-- `UpdatedAt.Scan`: identical to `CreatedAt.Scan` up to naming. -/
def updatedAtScan : SqlSrc → Except GoError Int
  | .null =>
    .error (.msgErr (newValidationError none
      [(goStr "target_type", .str (goStr "UpdatedAt")),
       (goStr "received_value", .str (goStr "nil_from_db"))]
      (goStr "Scanned nil value for non-nullable UpdatedAt.")))
  | .time t => .ok t
  | .bytes b =>
    match auditParse b with
    | some t => .ok t
    | none =>
      .error (.msgErr (newValidationError (some (goStr "time parse error"))
        [(goStr "input_bytes", .str b),
         (goStr "target_type", .str (goStr "UpdatedAt"))]
        (goStr "Failed to convert []byte to UpdatedAt.")))
  | .str s =>
    match auditParse s with
    | some t => .ok t
    | none =>
      .error (.msgErr (newValidationError (some (goStr "time parse error"))
        [(goStr "input_string", .str s),
         (goStr "target_type", .str (goStr "UpdatedAt"))]
        (goStr "Failed to convert string to UpdatedAt.")))
  | _ =>
    .error (.msgErr (newValidationError none
      [(goStr "received_type", .str (goStr "other")),
       (goStr "target_type", .str (goStr "UpdatedAt"))]
      (goStr "Incompatible type for UpdatedAt.")))

/-! ## Encode directions used by the round-trip law -/

/-- `Email.MarshalJSON`: the canonical string as a JSON string token. -/
def emailMarshalJSON (e : GoStr) : Json := .str e

/-- `Email.MarshalText`: the canonical string itself. -/
def emailMarshalText (e : GoStr) : GoStr := e

/-- `Phone.MarshalJSON`: the canonical string as a JSON string token. -/
def phoneMarshalJSON (p : GoStr) : Json := .str p

/-- `Phone.MarshalText`: the canonical string itself. -/
def phoneMarshalText (p : GoStr) : GoStr := p

/-! ## Invariants and claim-level predicates -/

/-- The stated invariant of the `Email` primitive: non-empty after
trimming, lower-case, within 254 runes, matching the e-mail grammar. -/
def EmailInvariant (e : GoStr) : Prop :=
  e ≠ [] ∧ goTrimSpace e = e ∧ goToLower e = e ∧
    e.length ≤ MaxEmailLength ∧ emailMatch e = true

/-- The stated invariant of the `Phone` primitive: exactly 13 digits,
digits only, starting with the default country code. -/
def PhoneInvariant (p : GoStr) : Prop :=
  p.length = NormalizedPhoneLength ∧ (∀ c ∈ p, isDigitRune c = true) ∧
    goStartsWith p DefaultCountryCode = true

/-- A rejection in the form the spec requires of constructors: the
structured error type, category invalid-input, a non-empty diagnostic
context holding the original raw input. -/
def ValidationWithRawInput (err : GoError) (raw : CtxVal) : Prop :=
  ∃ m, err = .msgErr m ∧ m.code = .invalid ∧ m.context ≠ [] ∧
    ∃ k, (k, raw) ∈ m.context

/-- The accept/reject outcome of a phone entry point, with the canonical
value on acceptance. -/
def phoneOutcome : Except GoError GoStr → Option GoStr
  | .ok p => some p
  | .error _ => none

/-- Whether a result is a structured error of category invalid-input. -/
def isInvalidMsgErr {α : Type} : Except GoError α → Bool
  | .error (.msgErr m) => m.code == .invalid
  | _ => false

/-! ## Character-class and trimming lemmas -/

/-- Dropping a leading run of elements failing `p` is the identity when
the head (if any) fails `p`. -/
theorem dropWhile_eq_self_of_forall {p : Nat → Bool} {s : GoStr}
    (h : ∀ c ∈ s, p c = false) : s.dropWhile p = s := by
  cases s with
  | nil => rfl
  | cons a t => simp [List.dropWhile_cons, h a (List.mem_cons_self a t)]

/-- Trimming a string with no white space anywhere is the identity. -/
theorem goTrimSpace_eq_self {s : GoStr} (h : ∀ c ∈ s, goIsSpace c = false) :
    goTrimSpace s = s := by
  unfold goTrimSpace
  rw [dropWhile_eq_self_of_forall h,
    dropWhile_eq_self_of_forall (fun c hc => h c (List.mem_reverse.mp hc)),
    List.reverse_reverse]

/-- A white-space rune is not a digit. -/
theorem space_not_digit {c : Nat} (h : goIsSpace c = true) :
    isDigitRune c = false := by
  simp [goIsSpace] at h
  simp [isDigitRune]
  omega

/-- Stripping non-digits ignores a leading run of white space. -/
theorem normalizePhone_dropWhile (s : GoStr) :
    normalizePhone (s.dropWhile goIsSpace) = normalizePhone s := by
  induction s with
  | nil => rfl
  | cons a t ih =>
    by_cases ha : goIsSpace a = true
    · simp only [List.dropWhile_cons, ha, if_true, ih]
      simp [normalizePhone, space_not_digit ha]
    · simp [List.dropWhile_cons, ha]

/-- Stripping non-digits commutes with reversal. -/
theorem normalizePhone_reverse (s : GoStr) :
    normalizePhone s.reverse = (normalizePhone s).reverse :=
  List.filter_reverse _ s

/-- Stripping non-digits ignores surrounding white space. -/
theorem normalizePhone_trim (s : GoStr) :
    normalizePhone (goTrimSpace s) = normalizePhone s := by
  unfold goTrimSpace
  rw [normalizePhone_reverse, normalizePhone_dropWhile, normalizePhone_reverse,
    List.reverse_reverse, normalizePhone_dropWhile]

/-- Every rune of a normalized phone string is a digit. -/
theorem mem_normalizePhone {s : GoStr} {c : Nat} (h : c ∈ normalizePhone s) :
    isDigitRune c = true := (List.mem_filter.mp h).2

/-- Stripping non-digits from an all-digit string is the identity. -/
theorem normalizePhone_eq_self {s : GoStr} (h : ∀ c ∈ s, isDigitRune c = true) :
    normalizePhone s = s := List.filter_eq_self.mpr h

/-- An empty trim means the whole string was white space. -/
theorem all_space_of_trim_nil {s : GoStr} (h : goTrimSpace s = []) :
    ∀ c ∈ s, goIsSpace c = true := by
  unfold goTrimSpace at h
  rw [List.reverse_eq_nil_iff, List.dropWhile_eq_nil_iff] at h
  intro c hc
  rw [← List.takeWhile_append_dropWhile (p := goIsSpace) (l := s)] at hc
  rcases List.mem_append.mp hc with hc' | hc'
  · exact List.mem_takeWhile_imp hc'
  · exact h c (List.mem_reverse.mpr hc')

/-- A digit rune is not white space. -/
theorem digit_not_space {c : Nat} (h : isDigitRune c = true) :
    goIsSpace c = false := by
  simp [isDigitRune] at h
  simp [goIsSpace]
  omega

/-! ## Phone validation lemmas -/

/-- A successful validation returns the normalized number, possibly with
the country code prepended, 13 runes long and starting with the country
code. -/
theorem validateAndPrefix_ok {n o p : GoStr}
    (h : validateAndPrefixNormalizedPhone n o = .ok p) :
    (p = n ∨ p = DefaultCountryCode ++ n) ∧
      p.length = NormalizedPhoneLength ∧
      goStartsWith p DefaultCountryCode = true := by
  unfold validateAndPrefixNormalizedPhone at h
  by_cases h1 : n.length = DDDLength + LocalPhoneNumberLength
  · rw [if_pos h1] at h
    by_cases h2 : goStartsWith n DefaultCountryCode = true
    · simp [h2] at h
    · simp only [h2, Bool.false_eq_true, if_false] at h
      by_cases h3 : (DefaultCountryCode ++ n).length ≠ NormalizedPhoneLength
      · rw [if_pos h3] at h; exact absurd h (by simp)
      · rw [if_neg h3] at h
        push_neg at h3
        by_cases h4 : goStartsWith (DefaultCountryCode ++ n) DefaultCountryCode = true
        · simp only [h4, not_true, if_false] at h
          injection h with h
          exact ⟨Or.inr h.symm, h ▸ h3, h ▸ h4⟩
        · rw [if_pos (by simp [h4])] at h
          exact absurd h (by simp)
  · rw [if_neg h1] at h
    by_cases h3 : n.length ≠ NormalizedPhoneLength
    · rw [if_pos h3] at h; exact absurd h (by simp)
    · rw [if_neg h3] at h
      push_neg at h3
      by_cases h4 : goStartsWith n DefaultCountryCode = true
      · rw [if_neg (by simp [h4])] at h
        injection h with h
        exact ⟨Or.inl h.symm, h ▸ h3, h ▸ h4⟩
      · rw [if_pos (by simp [h4])] at h
        exact absurd h (by simp)

/-- The country code is the digit string `[53, 53]`. -/
theorem defaultCountryCode_eq : DefaultCountryCode = [53, 53] := rfl

/-- A phone accepted by the constructor satisfies the stated invariant:
13 digits, digits only, country-code first. -/
theorem newPhone_ok {s p : GoStr} (h : newPhone s = .ok p) : PhoneInvariant p := by
  unfold newPhone at h
  by_cases h1 : goTrimSpace s = []
  · rw [if_pos h1] at h; exact absurd h (by simp)
  · rw [if_neg h1] at h
    by_cases h2 : (goTrimSpace s).length > MaxRawPhoneInputLength
    · rw [if_pos h2] at h; exact absurd h (by simp)
    · rw [if_neg h2] at h
      obtain ⟨hp, hlen, hpre⟩ := validateAndPrefix_ok h
      refine ⟨hlen, ?_, hpre⟩
      intro c hc
      rcases hp with rfl | rfl
      · exact mem_normalizePhone hc
      · rcases List.mem_append.mp hc with hc | hc
        · rw [defaultCountryCode_eq] at hc
          rcases List.mem_cons.mp hc with rfl | hc
          · rfl
          · rcases List.mem_cons.mp hc with rfl | hc
            · rfl
            · simp at hc
        · exact mem_normalizePhone hc

/-- Re-validating a canonical phone value accepts it unchanged. -/
theorem validateAndPrefix_of_invariant {p : GoStr} (hI : PhoneInvariant p)
    (o : GoStr) : validateAndPrefixNormalizedPhone p o = .ok p := by
  obtain ⟨hlen, _, hpre⟩ := hI
  unfold validateAndPrefixNormalizedPhone
  rw [if_neg (by rw [hlen]; decide),
    if_neg (by rw [hlen]; simp),
    if_neg (by simp [hpre])]

/-- Running the constructor on a canonical phone value accepts it
unchanged. -/
theorem newPhone_of_invariant {p : GoStr} (hI : PhoneInvariant p) :
    newPhone p = .ok p := by
  obtain ⟨hlen, hdig, hpre⟩ := hI
  have htrim : goTrimSpace p = p :=
    goTrimSpace_eq_self (fun c hc => digit_not_space (hdig c hc))
  have hnorm : normalizePhone p = p := normalizePhone_eq_self hdig
  unfold newPhone
  rw [htrim, if_neg (by intro hnil; rw [hnil] at hlen; exact absurd hlen (by decide)),
    if_neg (by rw [hlen]; decide), hnorm]
  exact validateAndPrefix_of_invariant ⟨hlen, hdig, hpre⟩ p

/-- The scan body reports the same accept/reject outcome (and the same
canonical value) as the bare validation call it wraps; only the error
payload is enriched. -/
theorem phoneScanStr_outcome (s : GoStr) :
    phoneOutcome (phoneScan.phoneScanStr s) =
      phoneOutcome (validateAndPrefixNormalizedPhone (normalizePhone s) s) := by
  cases h : validateAndPrefixNormalizedPhone (normalizePhone s) s with
  | ok v => simp [phoneScan.phoneScanStr, h, phoneOutcome]
  | error e =>
    cases e with
    | msgErr m => simp [phoneScan.phoneScanStr, h, phoneOutcome]
    | plain m => simp [phoneScan.phoneScanStr, h, phoneOutcome]

/-- The empty digit string is rejected by the validation core. -/
theorem validateAndPrefix_nil (o : GoStr) :
    phoneOutcome (validateAndPrefixNormalizedPhone [] o) = none := by
  simp [validateAndPrefixNormalizedPhone, phoneOutcome, DDDLength,
    LocalPhoneNumberLength, NormalizedPhoneLength, CountryCodeLength]

/-- Within the raw length cap, the scan body and the constructor agree on
outcome and canonical value. -/
theorem phoneScanStr_agrees_newPhone (s : GoStr)
    (hle : (goTrimSpace s).length ≤ MaxRawPhoneInputLength) :
    phoneOutcome (phoneScan.phoneScanStr s) = phoneOutcome (newPhone s) := by
  rw [phoneScanStr_outcome]
  by_cases h1 : goTrimSpace s = []
  · have hsp := all_space_of_trim_nil h1
    have hnorm : normalizePhone s = [] :=
      List.filter_eq_nil_iff.mpr
        (fun a ha => by simp [space_not_digit (hsp a ha)])
    rw [hnorm, validateAndPrefix_nil]
    unfold newPhone
    rw [if_pos h1]
    rfl
  · unfold newPhone
    rw [if_neg h1, if_neg (by omega), normalizePhone_trim]

/-! ## Claim theorems -/

/-- C4: the constructor normalizes `(62) 98287-0053`, `+55 62 98287-0053`
and `62982870053` to the canonical `5562982870053`, rejects the 13-digit
`5462982870053` (wrong country code), and rejects the 11-digit
`55123456789` (already starting with the country-code digits) as
ambiguous. -/
theorem C4_phone_examples :
    newPhone (goStr "(62) 98287-0053") = .ok (goStr "5562982870053") ∧
    newPhone (goStr "+55 62 98287-0053") = .ok (goStr "5562982870053") ∧
    newPhone (goStr "62982870053") = .ok (goStr "5562982870053") ∧
    (newPhone (goStr "5462982870053")).isOk = false ∧
    (newPhone (goStr "55123456789")).isOk = false :=
  ⟨rfl, rfl, rfl, rfl, rfl⟩

/-- C3 counterexample: a 31-rune input whose digits form a valid
canonical number is rejected by the constructor (and hence by the
structured and text decodes, which call it), yet accepted by the storage
decode, which skips the raw-length cap. -/
theorem C3_counterexample_scan_vs_constructor :
    (newPhone (goStr "5562982870053------------------")).isOk = false ∧
    phoneScan (.str (goStr "5562982870053------------------")) =
      .ok (goStr "5562982870053") :=
  ⟨rfl, rfl⟩

/-- C3 amended: structured decode and text decode run exactly the
constructor; storage decode runs the same single normalization and
validation core but without the constructor's empty-input and raw-length
pre-checks, so it agrees with the constructor in outcome and canonical
value on every input whose trimmed length is within the raw cap. -/
theorem C3_phone_entry_points_agree :
    (∀ s, phoneUnmarshalJSON (.str s) = newPhone s) ∧
    (∀ t, phoneUnmarshalText t = newPhone t) ∧
    ∀ s, (goTrimSpace s).length ≤ MaxRawPhoneInputLength →
      phoneOutcome (phoneScan (.str s)) = phoneOutcome (newPhone s) ∧
      phoneOutcome (phoneScan (.bytes s)) = phoneOutcome (newPhone s) := by
  refine ⟨fun s => rfl, fun t => rfl, fun s hle => ⟨?_, ?_⟩⟩
  · exact phoneScanStr_agrees_newPhone s hle
  · exact phoneScanStr_agrees_newPhone s hle

/-- C3 amended, witness: the agreement applied at the concrete input
`" 62 98287-0053 "`, which is within the raw cap. -/
theorem C3_phone_entry_points_agree_witness :
    (goTrimSpace (goStr " 62 98287-0053 ")).length ≤ MaxRawPhoneInputLength ∧
    phoneOutcome (phoneScan (.str (goStr " 62 98287-0053 "))) =
      phoneOutcome (newPhone (goStr " 62 98287-0053 ")) :=
  ⟨by decide, (C3_phone_entry_points_agree.2.2 (goStr " 62 98287-0053 ")
    (by decide)).1⟩

/-! ## Email character-class lemmas -/

/-- Lower-casing one rune twice is the same as once. -/
theorem goLowerRune_idem (c : Nat) : goLowerRune (goLowerRune c) = goLowerRune c := by
  unfold goLowerRune
  split
  · split <;> omega
  · rfl

/-- Lower-casing a string twice is the same as once. -/
theorem goToLower_idem (s : GoStr) : goToLower (goToLower s) = goToLower s := by
  simp only [goToLower, List.map_map]
  exact List.map_congr_left (fun a _ => goLowerRune_idem a)

/-- Every rune of a valid domain label is a letter, digit or hyphen. -/
theorem labelOk_chars {l : GoStr} (h : labelOk l = true) :
    ∀ c ∈ l, labelFillRune c = true := by
  cases l with
  | nil => simp [labelOk] at h
  | cons a rest =>
    simp only [labelOk, Bool.and_eq_true, Bool.or_eq_true] at h
    obtain ⟨ha, hrest⟩ := h
    intro c hc
    rcases List.mem_cons.mp hc with rfl | hc
    · simp [labelFillRune, ha]
    · rcases hrest with hnil | hlong
      · rw [List.isEmpty_iff.mp hnil] at hc; simp at hc
      · have hne : rest ≠ [] := by
          intro hn; rw [hn] at hc; simp at hc
        obtain ⟨⟨_, hfill⟩, hlast⟩ := hlong
        rw [← List.dropLast_append_getLast hne] at hc
        rcases List.mem_append.mp hc with hc | hc
        · exact (List.all_eq_true.mp hfill) c hc
        · rcases List.mem_singleton.mp hc with rfl
          rw [List.getLastD_eq_getLast?, List.getLast?_eq_getLast rest hne] at hlast
          simp only [Option.getD_some] at hlast
          simp [labelFillRune, hlast]

/-- Every rune of a string is a dot or sits in one of its dot-split
components. -/
theorem mem_splitDot {d : GoStr} {c : Nat} (hc : c ∈ d) :
    c = 46 ∨ ∃ comp ∈ splitDot d, c ∈ comp := by
  induction d with
  | nil => simp at hc
  | cons x rest ih =>
    by_cases hx : x = 46
    · subst hx
      rcases List.mem_cons.mp hc with rfl | hc
      · exact Or.inl rfl
      · rcases ih hc with h | ⟨comp, hcomp, hmem⟩
        · exact Or.inl h
        · exact Or.inr ⟨comp, by simp [splitDot, hcomp], hmem⟩
    · have hsplit : ∃ comp0 comps, splitDot rest = comp0 :: comps := by
        cases hs : splitDot rest with
        | nil =>
          exfalso
          clear ih hc hx
          induction rest with
          | nil => simp [splitDot] at hs
          | cons y t ihy =>
            by_cases hy : y = 46
            · simp [splitDot, hy] at hs
            · simp only [splitDot, hy, if_false] at hs
              cases ht : splitDot t with
              | nil => exact ihy ht
              | cons u v => rw [ht] at hs; simp at hs
        | cons comp0 comps => exact ⟨comp0, comps, rfl⟩
      obtain ⟨comp0, comps, hs⟩ := hsplit
      have hsd : splitDot (x :: rest) = (x :: comp0) :: comps := by
        simp [splitDot, hx, hs]
      rcases List.mem_cons.mp hc with rfl | hc
      · exact Or.inr ⟨c :: comp0, by simp [hsd], List.mem_cons_self _ _⟩
      · rcases ih hc with h | ⟨comp, hcomp, hmem⟩
        · exact Or.inl h
        · rw [hs] at hcomp
          rcases List.mem_cons.mp hcomp with rfl | hcomp
          · exact Or.inr ⟨x :: comp, by simp [hsd], List.mem_cons_of_mem _ hmem⟩
          · exact Or.inr ⟨comp, by simp [hsd, hcomp], hmem⟩

/-- Every rune of a valid domain is a letter, digit, hyphen or dot. -/
theorem domainOk_chars {d : GoStr} (h : domainOk d = true) :
    ∀ c ∈ d, (labelFillRune c || c = 46) = true := by
  intro c hc
  rcases mem_splitDot hc with rfl | ⟨comp, hcomp, hmem⟩
  · simp
  · have hlab := (List.all_eq_true.mp (by simpa [domainOk] using h)) comp hcomp
    simp [labelOk_chars hlab c hmem]

/-- A label rune or a dot is an allowed local-part rune (the local-part
set is a superset of the domain set). -/
theorem labelFill_or_dot_local {c : Nat}
    (h : (labelFillRune c || c = 46) = true) : isLocalRune c = true := by
  simp only [Bool.or_eq_true, decide_eq_true_eq] at h
  rcases h with h | rfl
  · simp only [labelFillRune, Bool.or_eq_true, decide_eq_true_eq] at h
    rcases h with h | rfl
    · simp [isLocalRune, h]
    · decide
  · decide

/-- Every rune of a matching e-mail is a local-part rune or the `@`. -/
theorem emailMatch_chars {s : GoStr} (h : emailMatch s = true) :
    ∀ c ∈ s, (isLocalRune c || c = 64) = true := by
  intro c hc
  have hsplit := List.takeWhile_append_dropWhile (fun c => decide (c ≠ 64)) s
  unfold emailMatch at h
  cases hD : s.dropWhile (fun c => c ≠ 64) with
  | nil => rw [hD] at h; simp at h
  | cons c0 dom =>
    rw [hD] at h
    simp only [Bool.and_eq_true, beq_iff_eq] at h
    obtain ⟨⟨⟨hc0, _⟩, hlocal⟩, hdom⟩ := h
    rw [← hsplit] at hc
    rw [hD] at hc
    rcases List.mem_append.mp hc with hc | hc
    · simp [List.all_eq_true.mp hlocal c hc]
    · rcases List.mem_cons.mp hc with rfl | hcdom
      · simp [hc0]
      · simp [labelFill_or_dot_local (domainOk_chars hdom c hcdom)]

/-- Allowed e-mail runes sit in the visible ASCII band. -/
theorem isLocalRune_range {c : Nat} (h : isLocalRune c = true) :
    33 ≤ c ∧ c ≤ 126 := by
  simp [isLocalRune, isAlnumRune, isDigitRune, localSpecials] at h
  omega

/-- Allowed e-mail runes (including `@`) are never white space. -/
theorem localOrAt_not_space {c : Nat}
    (h : (isLocalRune c || c = 64) = true) : goIsSpace c = false := by
  simp only [Bool.or_eq_true, decide_eq_true_eq] at h
  rcases h with h | rfl
  · obtain ⟨h1, h2⟩ := isLocalRune_range h
    simp [goIsSpace]
    omega
  · decide

/-- What a successful e-mail validation returns: the lower-cased trimmed
input, non-empty, within the length cap, matching the pattern. -/
theorem validateEmail_ok {s e : GoStr} (h : validateEmail s = .ok e) :
    e = goToLower (goTrimSpace s) ∧ e ≠ [] ∧
      e.length ≤ MaxEmailLength ∧ emailMatch e = true := by
  unfold validateEmail at h
  by_cases h1 : goToLower (goTrimSpace s) = []
  · rw [if_pos h1] at h; exact absurd h (by simp)
  · rw [if_neg h1] at h
    by_cases h2 : (goToLower (goTrimSpace s)).length > MaxEmailLength
    · rw [if_pos h2] at h; exact absurd h (by simp)
    · rw [if_neg h2] at h
      by_cases h3 : emailMatch (goToLower (goTrimSpace s)) = true
      · rw [if_neg (by simp [h3])] at h
        injection h with h
        subst h
        exact ⟨rfl, h1, by omega, h3⟩
      · rw [if_pos (by simp [h3])] at h
        exact absurd h (by simp)

/-- An e-mail accepted anywhere satisfies the stated invariant. -/
theorem validateEmail_ok_invariant {s e : GoStr}
    (h : validateEmail s = .ok e) : EmailInvariant e := by
  obtain ⟨hform, hne, hlen, hmatch⟩ := validateEmail_ok h
  refine ⟨hne, ?_, ?_, hlen, hmatch⟩
  · exact goTrimSpace_eq_self
      (fun c hc => localOrAt_not_space (emailMatch_chars hmatch c hc))
  · rw [hform]; exact goToLower_idem _

/-- Re-validating a canonical e-mail accepts it unchanged. -/
theorem validateEmail_of_invariant {e : GoStr} (h : EmailInvariant e) :
    validateEmail e = .ok e := by
  obtain ⟨hne, htrim, hlow, hlen, hmatch⟩ := h
  unfold validateEmail
  simp only [htrim, hlow]
  rw [if_neg hne, if_neg (by omega), if_neg (by simp [hmatch])]

/-- A successful validation of a stripped digit string yields the phone
invariant. -/
theorem validateAndPrefix_normalize_ok {x o p : GoStr}
    (h : validateAndPrefixNormalizedPhone (normalizePhone x) o = .ok p) :
    PhoneInvariant p := by
  obtain ⟨hp, hlen, hpre⟩ := validateAndPrefix_ok h
  refine ⟨hlen, ?_, hpre⟩
  intro c hc
  rcases hp with rfl | rfl
  · exact mem_normalizePhone hc
  · rcases List.mem_append.mp hc with hc | hc
    · rw [defaultCountryCode_eq] at hc
      rcases List.mem_cons.mp hc with rfl | hc
      · rfl
      · rcases List.mem_cons.mp hc with rfl | hc
        · rfl
        · simp at hc
    · exact mem_normalizePhone hc

/-- A successful e-mail scan body is a successful validation. -/
theorem emailScanStr_ok {s e : GoStr}
    (h : emailScan.emailScanStr s = .ok e) : validateEmail s = .ok e := by
  unfold emailScan.emailScanStr at h
  cases hv : validateEmail s with
  | ok v =>
    rw [hv] at h
    injection h with h
    exact congrArg Except.ok h
  | error ee => rw [hv] at h; cases ee <;> simp at h

/-- A successful phone scan body is a successful validation. -/
theorem phoneScanStr_ok {s p : GoStr}
    (h : phoneScan.phoneScanStr s = .ok p) :
    validateAndPrefixNormalizedPhone (normalizePhone s) s = .ok p := by
  unfold phoneScan.phoneScanStr at h
  cases hv : validateAndPrefixNormalizedPhone (normalizePhone s) s with
  | ok v =>
    rw [hv] at h
    injection h with h
    exact congrArg Except.ok h
  | error ee => rw [hv] at h; cases ee <;> simp at h

/-- C1 counterexample: the structured and storage decodes of `Currency`
and `Day` assign without validating, so decode success does not imply the
stated invariant — JSON `"XXX"` decodes into a Currency outside the
closed set, and 99 decodes into a Day outside 1..31. -/
theorem C1_counterexample_decode_skips_validation :
    currencyUnmarshalJSON (.str (goStr "XXX")) = .ok (goStr "XXX") ∧
    currencyIsValid (goStr "XXX") = false ∧
    currencyScan (.str (goStr "XXX")) = .ok (goStr "XXX") ∧
    dayUnmarshalJSON (.num 99) = .ok 99 ∧
    dayScan (.int64 99) = .ok 99 :=
  ⟨rfl, rfl, rfl, rfl, rfl⟩

/-- C1 amended: for the primitives whose decode entry points run the
validating constructor — Email and Phone — every decode entry point
(structured, text, storage) establishes the type's stated invariant on
success; Currency and Day structured/storage decodes assign without
validation and are excluded. -/
theorem C1_validated_decode_entry_points :
    (∀ j e, emailUnmarshalJSON j = .ok e → EmailInvariant e) ∧
    (∀ t e, emailUnmarshalText t = .ok e → EmailInvariant e) ∧
    (∀ src e, emailScan src = .ok e → EmailInvariant e) ∧
    (∀ j p, phoneUnmarshalJSON j = .ok p → PhoneInvariant p) ∧
    (∀ t p, phoneUnmarshalText t = .ok p → PhoneInvariant p) ∧
    (∀ src p, phoneScan src = .ok p → PhoneInvariant p) := by
  refine ⟨?_, ?_, ?_, ?_, ?_, ?_⟩
  · intro j e h
    cases j <;> simp only [emailUnmarshalJSON, goUnmarshalString] at h <;>
      first
      | exact validateEmail_ok_invariant h
      | simp at h
  · intro t e h
    exact validateEmail_ok_invariant h
  · intro src e h
    cases src <;>
      first
      | exact validateEmail_ok_invariant (emailScanStr_ok h)
      | simp [emailScan] at h
  · intro j p h
    cases j <;> simp only [phoneUnmarshalJSON, goUnmarshalString] at h <;>
      first
      | exact newPhone_ok h
      | simp at h
  · intro t p h
    exact newPhone_ok h
  · intro src p h
    cases src <;>
      first
      | exact validateAndPrefix_normalize_ok (phoneScanStr_ok h)
      | simp [phoneScan] at h

/-- C1 amended, witness: the decode guarantee applied at concrete
accepted inputs for each type. -/
theorem C1_validated_decode_entry_points_witness :
    EmailInvariant (goStr "user@example.com") ∧
    PhoneInvariant (goStr "5562982870053") :=
  ⟨C1_validated_decode_entry_points.1 (.str (goStr "User@Example.com"))
      (goStr "user@example.com") rfl,
    C1_validated_decode_entry_points.2.2.2.2.2 (.str (goStr "62982870053"))
      (goStr "5562982870053") rfl⟩

/-- The 64-bit bounds as numerals. -/
theorem maxInt64_eq : maxInt64 = 9223372036854775807 := by norm_num [maxInt64]

/-- The 64-bit lower bound as a numeral. -/
theorem minInt64_eq : minInt64 = -9223372036854775808 := by norm_num [minInt64]

/-- C2: for every value accepted by the validating constructor, decoding
its encoding returns the same value — Email across all three codec
pairs, Phone across all three codec pairs, Version across its structured
and storage pairs (it exposes no text codec). -/
theorem C2_roundtrip :
    (∀ raw e, newEmail raw = .ok e →
      emailUnmarshalJSON (emailMarshalJSON e) = .ok e ∧
      emailUnmarshalText (emailMarshalText e) = .ok e ∧
      emailScan (emailValue e) = .ok e) ∧
    (∀ raw p, newPhone raw = .ok p →
      phoneUnmarshalJSON (phoneMarshalJSON p) = .ok p ∧
      phoneUnmarshalText (phoneMarshalText p) = .ok p ∧
      phoneValue p = .ok (.str p) ∧ phoneScan (.str p) = .ok p) ∧
    (∀ v : Int, minInt64 ≤ v → v ≤ maxInt64 →
      versionUnmarshalJSON (versionMarshalJSON v) = .ok v ∧
      versionScan (versionValue v) = .ok v) := by
  refine ⟨?_, ?_, ?_⟩
  · intro raw e h
    have hv := validateEmail_of_invariant (validateEmail_ok_invariant h)
    exact ⟨hv, hv, by simp [emailScan, emailValue, emailScan.emailScanStr, hv]⟩
  · intro raw p h
    have hI := newPhone_ok h
    have hnew := newPhone_of_invariant hI
    have hnorm : normalizePhone p = p := normalizePhone_eq_self hI.2.1
    have hval := validateAndPrefix_of_invariant hI p
    refine ⟨hnew, hnew, ?_, ?_⟩
    · unfold phoneValue
      rw [if_neg (by intro hn; rw [hn] at hI; exact absurd hI.1 (by decide))]
    · show phoneScan.phoneScanStr p = .ok p
      unfold phoneScan.phoneScanStr
      rw [hnorm, hval]
  · intro v h1 h2
    rw [maxInt64_eq] at h2
    rw [minInt64_eq] at h1
    refine ⟨by simp [versionUnmarshalJSON, versionMarshalJSON, goUnmarshalInt], ?_⟩
    simp only [versionValue, versionScan]
    rw [if_neg (by rw [maxInt64_eq, minInt64_eq]; omega)]

/-- C2, witness: the round-trip law applied at a concrete accepted
e-mail, phone and version. -/
theorem C2_roundtrip_witness :
    emailUnmarshalJSON (emailMarshalJSON (goStr "a@b.co")) = .ok (goStr "a@b.co") ∧
    phoneUnmarshalText (phoneMarshalText (goStr "5562982870053")) =
      .ok (goStr "5562982870053") ∧
    versionScan (versionValue 1) = .ok 1 :=
  ⟨(C2_roundtrip.1 (goStr "A@b.co") (goStr "a@b.co") rfl).1,
    (C2_roundtrip.2.1 (goStr "62982870053") (goStr "5562982870053") rfl).2.1,
    (C2_roundtrip.2.2 1 (by decide) (by decide)).2⟩

/-- A validation error whose context holds the raw input under some key
is a rejection of the shape the spec requires. -/
theorem vwri_of_mem (k : GoStr) {cause : Option GoStr} {msg : GoStr}
    {raw : CtxVal} {ctx : Ctx} (hne : ctx ≠ []) (hmem : (k, raw) ∈ ctx) :
    ValidationWithRawInput (.msgErr (newValidationError cause ctx msg)) raw :=
  ⟨newValidationError cause ctx msg, rfl, rfl, hne, k, hmem⟩

/-- Every failure of the phone validation core is a structured
invalid-input error carrying the original input in context. -/
theorem validateAndPrefix_error_ctx {n o : GoStr} {e : GoError}
    (h : validateAndPrefixNormalizedPhone n o = .error e) :
    ValidationWithRawInput e (.str o) := by
  unfold validateAndPrefixNormalizedPhone at h
  by_cases h1 : n.length = DDDLength + LocalPhoneNumberLength
  · rw [if_pos h1] at h
    by_cases h2 : goStartsWith n DefaultCountryCode = true
    · rw [if_pos h2] at h
      injection h with h
      exact h ▸ vwri_of_mem (goStr "input_phone") (by simp) (by simp)
    · rw [if_neg (by simp [h2])] at h
      by_cases h3 : (DefaultCountryCode ++ n).length ≠ NormalizedPhoneLength
      · rw [if_pos h3] at h
        injection h with h
        exact h ▸ vwri_of_mem (goStr "input_phone") (by simp) (by simp)
      · rw [if_neg h3] at h
        by_cases h4 : goStartsWith (DefaultCountryCode ++ n) DefaultCountryCode = true
        · simp only [h4, not_true, if_false] at h
          exact absurd h (by simp)
        · rw [if_pos (by simp [h4])] at h
          injection h with h
          exact h ▸ vwri_of_mem (goStr "input_phone") (by simp) (by simp)
  · rw [if_neg h1] at h
    by_cases h3 : n.length ≠ NormalizedPhoneLength
    · rw [if_pos h3] at h
      injection h with h
      exact h ▸ vwri_of_mem (goStr "input_phone") (by simp) (by simp)
    · rw [if_neg h3] at h
      by_cases h4 : goStartsWith n DefaultCountryCode = true
      · rw [if_neg (by simp [h4])] at h
        exact absurd h (by simp)
      · rw [if_pos (by simp [h4])] at h
        injection h with h
        exact h ▸ vwri_of_mem (goStr "input_phone") (by simp) (by simp)

/-- C5 counterexample: `NewDay(0)` and `NewCurrency("GBP")` fail with
bare sentinel errors, not the structured invalid-input error with a
context holding the raw input that the claim requires of every
constructor. -/
theorem C5_counterexample_plain_sentinels :
    newDay 0 = .error (.plain (goStr "day must be between 1 and 31")) ∧
    ¬ ValidationWithRawInput
        (.plain (goStr "day must be between 1 and 31")) (.int 0) ∧
    newCurrency (goStr "GBP") = .error (.plain (goStr "invalid currency")) ∧
    ¬ ValidationWithRawInput
        (.plain (goStr "invalid currency")) (.str (goStr "GBP")) := by
  refine ⟨rfl, ?_, rfl, ?_⟩
  · rintro ⟨m, hm, -⟩
    exact GoError.noConfusion hm
  · rintro ⟨m, hm, -⟩
    exact GoError.noConfusion hm

/-- C5 amended: for the constructors that use the structured error model
— NewEmail and NewPhone — every rejection is a structured error of
category invalid-input whose non-empty context holds the original raw
input; NewDay and NewCurrency return plain sentinel errors and are
excluded. -/
theorem C5_constructor_errors_structured :
    (∀ s e, newEmail s = .error e → ValidationWithRawInput e (.str s)) ∧
    (∀ s e, newPhone s = .error e → ValidationWithRawInput e (.str s)) := by
  constructor
  · intro s e h
    unfold newEmail validateEmail at h
    by_cases h1 : goToLower (goTrimSpace s) = []
    · rw [if_pos h1] at h
      injection h with h
      exact h ▸ vwri_of_mem (goStr "input_email") (by simp) (by simp)
    · rw [if_neg h1] at h
      by_cases h2 : (goToLower (goTrimSpace s)).length > MaxEmailLength
      · rw [if_pos h2] at h
        injection h with h
        exact h ▸ vwri_of_mem (goStr "input_email") (by simp) (by simp)
      · rw [if_neg h2] at h
        by_cases h3 : emailMatch (goToLower (goTrimSpace s)) = true
        · rw [if_neg (by simp [h3])] at h
          exact absurd h (by simp)
        · rw [if_pos (by simp [h3])] at h
          injection h with h
          exact h ▸ vwri_of_mem (goStr "input_email") (by simp) (by simp)
  · intro s e h
    unfold newPhone at h
    by_cases h1 : goTrimSpace s = []
    · rw [if_pos h1] at h
      injection h with h
      exact h ▸ vwri_of_mem (goStr "input_phone") (by simp) (by simp)
    · rw [if_neg h1] at h
      by_cases h2 : (goTrimSpace s).length > MaxRawPhoneInputLength
      · rw [if_pos h2] at h
        injection h with h
        exact h ▸ vwri_of_mem (goStr "input_phone") (by simp) (by simp)
      · rw [if_neg h2] at h
        exact validateAndPrefix_error_ctx h

/-- The structured error the phone constructor returns for the too-short
input `123`. -/
def c5SampleError : GoError :=
  .msgErr (newValidationError none
    [(goStr "input_phone", .str (goStr "123")),
     (goStr "normalized_phone_after_prefix_attempt", .str (goStr "123")),
     (goStr "expected_length", .int 13),
     (goStr "actual_length", .int 3)]
    (goStr "Normalized phone number must have 13 digits (e.g., 55DDNNNNNNNNN)."))

/-- C5 amended, witness: the structured-rejection guarantee applied at
the concrete rejected input `123`. -/
theorem C5_constructor_errors_structured_witness :
    newPhone (goStr "123") = .error c5SampleError ∧
    ValidationWithRawInput c5SampleError (.str (goStr "123")) :=
  ⟨rfl, C5_constructor_errors_structured.2 (goStr "123") c5SampleError rfl⟩

/-- C6: structured decode of the JSON `null` token succeeds and clears
the pair to the absent state for NullableTime and NullableUUID, but
fails with a structured invalid-input error for the non-nullable
CreatedAt, UpdatedAt and Version. -/
theorem C6_json_null_handling :
    (∀ nt, ntUnmarshalJSON nt .null = (⟨0, false⟩, none)) ∧
    (∀ nu, nuUnmarshalJSON nu .null = (⟨uuidNil, false⟩, none)) ∧
    isInvalidMsgErr (createdAtUnmarshalJSON .null) = true ∧
    isInvalidMsgErr (updatedAtUnmarshalJSON .null) = true ∧
    isInvalidMsgErr (versionUnmarshalJSON .null) = true :=
  ⟨fun _ => rfl, fun _ => rfl, rfl, rfl, rfl⟩

/-- C7: the Day bounds and the month-wrapping arithmetic at the spec's
concrete date 2024-03-15 — 26 days until day 10 (March has 31 days) and
24 days overdue for day 20 (February 2024 has 29 days). -/
theorem C7_day_bounds_and_wrap :
    (newDay 0).isOk = false ∧ (newDay 32).isOk = false ∧
    newDay 1 = .ok 1 ∧ newDay 31 = .ok 31 ∧
    daysUntil 10 ⟨2024, 3, 15⟩ = 26 ∧
    daysOverdue 20 ⟨2024, 3, 15⟩ = 24 :=
  ⟨rfl, rfl, rfl, rfl, by decide, by decide⟩

/-- C8: `Set` derives validity from the instant, so setting the zero
instant yields an invalid pair; explicitly constructing a valid pair
with the zero instant reports a zero instant yet non-null. -/
theorem C8_nullable_time_zero_instant :
    (∀ nt : NullableTime, (ntSet nt 0).valid = false) ∧
    ntIsZero (newNullableTime 0 true) = true ∧
    ntIsNullable (newNullableTime 0 true) = false :=
  ⟨fun _ => rfl, rfl, rfl⟩

/-- C9: the response projection is deterministic in the category —
invalid-input always projects to status 400 — and projects the child
errors recursively, in order, with message, category and context
intact. -/
theorem C9_projection : ∀ e : MessageError,
    (e.code = .invalid → (toResponse e).statusCode = 400) ∧
    (toResponse e).details = e.details.map toResponse ∧
    (toResponse e).message = e.message ∧
    (toResponse e).code = codeStr e.code ∧
    (toResponse e).context = e.context := by
  intro e
  cases e with
  | mk cause m c ctx ds =>
    refine ⟨?_, ?_, by simp [toResponse, MessageError.message],
      by simp [toResponse, MessageError.code],
      by simp [toResponse, MessageError.context]⟩
    · intro hc
      have hc' : c = .invalid := hc
      subst hc'
      simp [toResponse, httpStatus]
    · simp only [toResponse, MessageError.details]
      exact List.attach_map_coe ds toResponse

/-- A sample single-field validation failure (first child). -/
def c9Child1 : MessageError :=
  newValidationError none [(goStr "field", .str (goStr "email"))]
    (goStr "must be a valid email")

/-- A sample single-field validation failure (second child). -/
def c9Child2 : MessageError :=
  newValidationError none [(goStr "field", .str (goStr "password"))]
    (goStr "must be at least 10 chars")

/-- A sample aggregate invalid-input error with two children. -/
def c9Agg : MessageError :=
  .mk (some (goStr "validation failed")) (goStr "One or more fields are invalid")
    .invalid [(goStr "form", .str (goStr "registration"))] [c9Child1, c9Child2]

/-- C9, witness: the projection applied at a concrete aggregate with two
child validation errors. -/
theorem C9_projection_witness :
    (toResponse c9Agg).statusCode = 400 ∧
    (toResponse c9Agg).details = [toResponse c9Child1, toResponse c9Child2] :=
  ⟨(C9_projection c9Agg).1 rfl, by
    have h := (C9_projection c9Agg).2.1
    simpa [c9Agg, MessageError.details] using h⟩

/-- C10: storage decode of a nil source succeeds for the Identifier
(yielding the nil sentinel), while Email, Phone, Version, CreatedAt and
UpdatedAt reject a nil source with a structured invalid-input error. -/
theorem C10_scan_nil :
    goUuidScan .null = .ok uuidNil ∧
    isInvalidMsgErr (emailScan .null) = true ∧
    isInvalidMsgErr (phoneScan .null) = true ∧
    isInvalidMsgErr (versionScan .null) = true ∧
    isInvalidMsgErr (createdAtScan .null) = true ∧
    isInvalidMsgErr (updatedAtScan .null) = true :=
  ⟨rfl, rfl, rfl, rfl, rfl, rfl⟩
